import Mathlib

/-!
Verification development for the realtime audio session component of the
WEB-AI browser client (the AudioSuite component and its Gemini service
helpers).

The development is a shallow embedding of the TypeScript source:

* JS `Int16Array` element assignment (`ToInt16`: truncation toward zero
  followed by wrapping into the signed 16-bit range) is modelled on `ℚ`/`ℤ`.
* `btoa`/`atob` are modelled as standard base64 over byte lists, with the
  usual `=` padding.
* The component's mutable refs (`nextStartTimeRef`, `sourcesRef`,
  `audioContextRef`, ...) are collected into an explicit `AppState` record,
  and the event handlers (`onopen`, `onmessage`, `onerror`) together with
  `startLiveSession` / `stopLiveSession` become state-transition functions.
  Operations that the source wraps in try/catch (closing an already-closed
  session) are modelled with `Except` and an explicit catch.
* Audio timestamps and sample values are rationals.
-/

attribute [local semireducible] Rat.add Rat.mul Rat.inv Rat.sub

namespace WebAI

/-! ### JS numeric conversion used by `Int16Array` element assignment -/

/-- JS `ToIntegerOrInfinity` on a finite number: truncation toward zero. -/
def jsTrunc (q : ℚ) : ℤ := if 0 ≤ q then ⌊q⌋ else ⌈q⌉

/-- Wrap an integer into the signed 16-bit range, as JS `ToInt16` does:
take the value modulo 2^16 and re-center into `[-32768, 32767]`. -/
def wrap16 (i : ℤ) : ℤ :=
  if 32768 ≤ i % 65536 then i % 65536 - 65536 else i % 65536

/-- JS `ToInt16` applied to a (finite) number: truncate, then wrap. -/
def toInt16 (q : ℚ) : ℤ := wrap16 (jsTrunc q)

/-- The encoder's per-sample quantization, `int16[i] = data[i] * 32768`
from `createBlob` (the `Int16Array` store applies `ToInt16`). -/
def encodeSample (v : ℚ) : ℤ := toInt16 (v * 32768)

/-! ### Byte packing: `new Uint8Array(int16.buffer)` (little endian) -/

/-- The two little-endian bytes of an `Int16Array` element, as seen through
a `Uint8Array` view of the same buffer. -/
def int16LEBytes (i : ℤ) : List ℕ :=
  [(i % 65536).toNat % 256, (i % 65536).toNat / 256]

/-- Reassemble a signed 16-bit value from two little-endian bytes, as
`new Int16Array(bytes.buffer)` does. -/
def bytePairToInt16 (lo hi : ℕ) : ℤ :=
  if 32768 ≤ lo + 256 * hi then (lo + 256 * hi : ℤ) - 65536 else (lo + 256 * hi : ℤ)

/-- View a byte list as a list of signed 16-bit little-endian values. -/
def bytesToInt16LE : List ℕ → List ℤ
  | lo :: hi :: rest => bytePairToInt16 lo hi :: bytesToInt16LE rest
  | _ => []

/-! ### base64 (`btoa` / `atob`) -/

/-- The standard base64 alphabet, in index order. -/
def b64Alphabet : List Char :=
  ['A','B','C','D','E','F','G','H','I','J','K','L','M',
   'N','O','P','Q','R','S','T','U','V','W','X','Y','Z',
   'a','b','c','d','e','f','g','h','i','j','k','l','m',
   'n','o','p','q','r','s','t','u','v','w','x','y','z',
   '0','1','2','3','4','5','6','7','8','9','+','/']

/-- The base64 digit for a 6-bit value. -/
def sextetChar (n : ℕ) : Char := b64Alphabet.getD n '='

/-- The 6-bit value of a base64 digit. -/
def charSextet (c : Char) : ℕ := b64Alphabet.indexOf c

/-- `btoa` on a byte list: standard base64 with `=` padding. -/
def btoa : List ℕ → List Char
  | [] => []
  | [a] => [sextetChar (a / 4), sextetChar (a % 4 * 16), '=', '=']
  | [a, b] => [sextetChar (a / 4), sextetChar (a % 4 * 16 + b / 16),
               sextetChar (b % 16 * 4), '=']
  | a :: b :: c :: rest =>
      sextetChar (a / 4) :: sextetChar (a % 4 * 16 + b / 16) ::
      sextetChar (b % 16 * 4 + c / 64) :: sextetChar (c % 64) :: btoa rest

/-- `atob` on a base64 string: decode four digits to three bytes, with the
`=` padding conventions for one- and two-byte tails. -/
def atob : List Char → List ℕ
  | w :: x :: y :: z :: rest =>
      if y = '=' then
        [charSextet w * 4 + charSextet x / 16]
      else if z = '=' then
        [charSextet w * 4 + charSextet x / 16,
         charSextet x % 16 * 16 + charSextet y / 4]
      else
        (charSextet w * 4 + charSextet x / 16) ::
        (charSextet x % 16 * 16 + charSextet y / 4) ::
        (charSextet y % 4 * 64 + charSextet z) :: atob rest
  | _ => []

/-! ### The wire codec of the component -/

/-- The `Blob` record handed to `session.sendRealtimeInput`. -/
structure GenAIBlob where
  data : List Char
  mimeType : String
deriving DecidableEq

/-- `createBlob` from the component: quantize float samples to 16-bit by
multiplying by 32768 (no clamping), byte-pack little-endian, base64-encode,
and attach the hardcoded MIME descriptor. -/
def createBlob (data : List ℚ) : GenAIBlob :=
  { data := btoa ((data.map fun v => int16LEBytes (encodeSample v)).flatten),
    mimeType := "audio/pcm;rate=16000" }

/-- `decode` from the component: base64 string to bytes. -/
def decode (base64 : List Char) : List ℕ := atob base64

/-- `frameCount` computed by `decodeAudioData`:
`dataInt16.length / numChannels`. -/
def frameCount (bytes : List ℕ) (numChannels : ℕ) : ℕ :=
  (bytesToInt16LE bytes).length / numChannels

/-- `decodeAudioData` from the component: view the bytes as 16-bit signed
little-endian samples, normalize by dividing by 32768, and deinterleave
into one channel list per channel. -/
def decodeAudioData (bytes : List ℕ) (numChannels : ℕ) : List (List ℚ) :=
  (List.range numChannels).map fun channel =>
    (List.range (frameCount bytes numChannels)).map fun i =>
      ((bytesToInt16LE bytes).getD (i * numChannels + channel) 0 : ℚ) / 32768

/-- The duration of the decoded `AudioBuffer`: `frameCount / sampleRate`. -/
def bufferDuration (bytes : List ℕ) (sampleRate : ℚ) (numChannels : ℕ) : ℚ :=
  (frameCount bytes numChannels : ℚ) / sampleRate

/-- The MIME descriptor the spec prescribes for an encoded frame,
`audio/pcm;rate=<inputSampleRate>` (stated from the spec's words, for
comparison with the `mimeType` the code actually produces). -/
def specMimeType (inputSampleRate : ℕ) : String :=
  "audio/pcm;rate=" ++ toString inputSampleRate

/-! ### `formatGeminiError` from the Gemini service -/

/-- Whether `pat` starts `hay` (character-wise). -/
def leadsWith : List Char → List Char → Bool
  | _, [] => true
  | [], _ :: _ => false
  | h :: hs, p :: ps => h == p && leadsWith hs ps

/-- Whether `pat` occurs contiguously inside `hay` (JS `String.includes`). -/
def containsSub (hay pat : List Char) : Bool :=
  match hay with
  | [] => pat.isEmpty
  | _ :: t => leadsWith hay pat || containsSub t pat

/-- JS `toLowerCase` (sufficient for the ASCII messages involved). -/
def toLowerCase (s : String) : String := String.mk (s.data.map Char.toLower)

/-- `includes` on strings, after the source's lowercasing convention. -/
def strIncludes (hay pat : String) : Bool := containsSub hay.data pat.data

/-- `formatGeminiError` from the Gemini service: map an error message to a
user-facing message by substring tests on the lowercased text. -/
def formatGeminiError (errMsg : String) : String :=
  let m := toLowerCase errMsg
  if strIncludes m ("google maps tool is not enabled") then
    "Google Maps Grounding is not enabled for this model."
  else if strIncludes m ("400") then
    "Invalid request (400). Please check your prompt or parameters."
  else if strIncludes m ("401") then
    "Invalid API Key (401). Please update your key in the Login/Settings page."
  else if strIncludes m ("403") then
    "Access Denied (403). Your API key may lack permissions, be expired, or the model is not available in your region."
  else if strIncludes m ("404") then
    "Model not found (404). This feature may not be available in your region or with your current API key."
  else if strIncludes m ("429") then
    "Rate limit exceeded (429). You are sending requests too fast. Please wait a moment."
  else if strIncludes m ("500") || strIncludes m ("503") then
    "Google Service Error (5xx). The AI service is temporarily unavailable. Please try again later."
  else if strIncludes m ("safety") then
    "Response blocked by safety filters. Please try modifying your prompt."
  else if strIncludes m ("fetch failed") || strIncludes m ("networkerror") then
    "Network connection failed. Please check your internet."
  else if errMsg = "" then
    "An unexpected error occurred."
  else errMsg

/-! ### The live-session state -/

/-- Lifecycle state of a Web Audio `AudioContext`. -/
inductive CtxLifecycle
  | running
  | suspended
  | closed
deriving DecidableEq

/-- An `AudioContext`: lifecycle state, output clock, configured rate. -/
structure AudioCtx where
  state : CtxLifecycle
  currentTime : ℚ
  sampleRate : ℕ
deriving DecidableEq

/-- A microphone `MediaStreamTrack` (only its stopped flag matters here). -/
structure MicTrack where
  stopped : Bool
deriving DecidableEq

/-- A microphone `MediaStream`. -/
structure MicStream where
  tracks : List MicTrack
deriving DecidableEq

/-- The transport `Session` object (only its closed flag matters here). -/
structure SessionHandle where
  closed : Bool
deriving DecidableEq

/-- The component's `connectionState`. -/
inductive ConnState
  | DISCONNECTED
  | CONNECTING
  | CONNECTED
  | ERROR
deriving DecidableEq

/-- The component's mutable refs and React state, collected in one record.
`scriptProcessor = some true` means the capture processor is created and
wired (its `onaudioprocess` is installed); `some false` means it exists but
is disconnected. `sources` is `sourcesRef` (scheduled buffer sources,
recorded as (startTime, duration) pairs). -/
structure AppState where
  session : Option SessionHandle
  scriptProcessor : Option Bool
  mediaStream : Option MicStream
  inputCtx : Option AudioCtx
  outputCtx : Option AudioCtx
  nextStartTime : ℚ
  sources : List (ℚ × ℚ)
  liveActive : Bool
  connectionState : ConnState
  error : Option String
  isOutputPaused : Bool
deriving DecidableEq

/-- The initial values of the refs and state hooks. -/
def initialState : AppState :=
  { session := none
    scriptProcessor := none
    mediaStream := none
    inputCtx := none
    outputCtx := none
    nextStartTime := 0
    sources := []
    liveActive := false
    connectionState := ConnState.DISCONNECTED
    error := none
    isOutputPaused := false }

/-- The `AudioSettings` configuration record. -/
structure AudioSettings where
  inputSampleRate : ℕ
  outputSampleRate : ℕ
  bufferSize : ℕ
deriving DecidableEq

/-- The initial `settings` value of the component. -/
def settings : AudioSettings :=
  { inputSampleRate := 16000, outputSampleRate := 24000, bufferSize := 4096 }

/-- `session.close()`: throws when the session is already closed. -/
def closeSession (s : SessionHandle) : Except String SessionHandle :=
  if s.closed then Except.error ("Session already closed")
  else Except.ok { closed := true }

/-- `ctx.close()` on an `AudioContext`. -/
def closeCtx (c : AudioCtx) : AudioCtx := { c with state := CtxLifecycle.closed }

/-- The `session.close()` call of `stopLiveSession`, with its try/catch:
an "already closed" error is swallowed (and logged). -/
def closeSessionCaught (s : SessionHandle) : SessionHandle :=
  match closeSession s with
  | Except.ok s' => s'
  | Except.error _ => s

/-- `mediaStreamRef.current?.getTracks().forEach(t => t.stop())`. -/
def stopAllTracks (m : MicStream) : MicStream :=
  { tracks := m.tracks.map fun _ => { stopped := true } }

/-- The guarded `ctx.close()` of `stopLiveSession`: close only when the
context is not already closed (its own try/catch never fires in the model). -/
def closeCtxGuarded (c : AudioCtx) : AudioCtx :=
  if c.state ≠ CtxLifecycle.closed then closeCtx c else c

/-- `stopLiveSession` from the component: close the session (swallowing the
error if it is already closed), disconnect the script processor, stop every
microphone track, close each audio context unless it is already closed, and
reset the UI state. Every fallible step of the source is wrapped in
try/catch, which is why this function is total. -/
def stopLiveSession (st : AppState) : AppState :=
  { st with
    session := st.session.map closeSessionCaught
    scriptProcessor := st.scriptProcessor.map fun _ => false
    mediaStream := st.mediaStream.map stopAllTracks
    inputCtx := st.inputCtx.map closeCtxGuarded
    outputCtx := st.outputCtx.map closeCtxGuarded
    liveActive := false
    connectionState := ConnState.DISCONNECTED }

/-- The `e.name` cases `startLiveSession` distinguishes when
`getUserMedia` rejects. -/
inductive MicFailure
  | notAllowed
  | permissionDenied
  | notFound
  | devicesNotFound
  | otherFailure
deriving DecidableEq

/-- The message of the `Error` thrown for each microphone failure kind. -/
def micErrorMessage : MicFailure → String
  | MicFailure.notAllowed =>
      "Microphone access denied. Please allow microphone permissions in your browser settings."
  | MicFailure.permissionDenied =>
      "Microphone access denied. Please allow microphone permissions in your browser settings."
  | MicFailure.notFound =>
      "No microphone found. Please check your audio input device."
  | MicFailure.devicesNotFound =>
      "No microphone found. Please check your audio input device."
  | MicFailure.otherFailure =>
      "Could not access audio device. Please check your system settings."

/-- `startLiveSession` from the component, with the `getUserMedia` outcome
as an explicit input. It clears the error, un-pauses output, enters
CONNECTING, creates fresh input/output contexts at the configured rates,
then either fails on the microphone (inner catch sets ERROR and throws a
kind-specific message; the outer catch formats it and sets ERROR again) or
stores the stream and the pending session. Note that it does not touch
`nextStartTime` or `sources`. -/
def startLiveSession (cfg : AudioSettings) (mic : Except MicFailure MicStream)
    (st : AppState) : AppState :=
  let st1 : AppState :=
    { st with
      error := none
      isOutputPaused := false
      connectionState := ConnState.CONNECTING
      inputCtx := some { state := CtxLifecycle.running, currentTime := 0,
                         sampleRate := cfg.inputSampleRate }
      outputCtx := some { state := CtxLifecycle.running, currentTime := 0,
                          sampleRate := cfg.outputSampleRate } }
  match mic with
  | Except.error f =>
      { st1 with
        connectionState := ConnState.ERROR
        error := some (formatGeminiError (micErrorMessage f)) }
  | Except.ok stream =>
      { st1 with
        mediaStream := some stream
        session := some { closed := false } }

/-- The `onopen` callback: mark the session live and CONNECTED, and wire
the capture chain (create the script processor and install its
`onaudioprocess` handler). -/
def onopen (st : AppState) : AppState :=
  { st with
    liveActive := true
    connectionState := ConnState.CONNECTED
    scriptProcessor := some true }

/-- An inbound `LiveServerMessage`, reduced to the optional audio payload
the handler reads (`msg.serverContent?.modelTurn?.parts?[0]?.inlineData?.data`). -/
structure LiveServerMessage where
  inlineData : Option (List Char)
deriving DecidableEq

/-- The `onmessage` callback. When a (truthy, hence nonempty) payload is
present and the output context exists and is not closed: pull the schedule
clock up to the output clock, decode the payload, start a source at the
schedule clock, advance the clock by the buffer's duration, and add the
source to the active set. Returns the new state and the scheduled
(startTime, duration), if any. -/
def onmessage (cfg : AudioSettings) (msg : LiveServerMessage) (st : AppState) :
    AppState × Option (ℚ × ℚ) :=
  match msg.inlineData, st.outputCtx with
  | some b64, some ctx =>
      if b64 ≠ [] ∧ ctx.state ≠ CtxLifecycle.closed then
        let startAt := max st.nextStartTime ctx.currentTime
        let dur := bufferDuration (decode b64) (cfg.outputSampleRate : ℚ) 1
        ({ st with nextStartTime := startAt + dur,
                   sources := (startAt, dur) :: st.sources },
         some (startAt, dur))
      else (st, none)
  | _, _ => (st, none)

/-- The duration the handler computes for a given base64 payload. -/
def msgDur (cfg : AudioSettings) (b64 : List Char) : ℚ :=
  bufferDuration (decode b64) (cfg.outputSampleRate : ℚ) 1

/-- Deliver a list of (payload, arrival time) messages to `onmessage`,
setting the output clock to each arrival time, and collect the scheduled
(startTime, duration) pairs in order. -/
def runMessages (cfg : AudioSettings) (ctx0 : AudioCtx) (st : AppState) :
    List (List Char × ℚ) → AppState × List (ℚ × ℚ)
  | [] => (st, [])
  | (b64, now) :: rest =>
      let stepped := onmessage cfg { inlineData := some b64 }
        { st with outputCtx := some { ctx0 with currentTime := now } }
      let tail := runMessages cfg ctx0 stepped.1 rest
      (tail.1, stepped.2.toList ++ tail.2)

/-- Sum of the first `k` durations of a list. -/
def sumTake (l : List ℚ) (k : ℕ) : ℚ := (l.take k).sum

/-- Events seen by the capture side of a session, in arrival order. -/
inductive SessionEvent
  | openEvt
  | micChunk (data : List ℚ)
deriving DecidableEq

/-- One capture-side event: the transport's open callback wires the
processor; a microphone chunk is encoded and sent only through the
`onaudioprocess` handler, which exists only once wired. -/
def handleSessionEvent (st : AppState) : SessionEvent → AppState × List GenAIBlob
  | SessionEvent.openEvt => (onopen st, [])
  | SessionEvent.micChunk data =>
      match st.scriptProcessor with
      | some true => (st, [createBlob data])
      | _ => (st, [])

/-- Run a list of capture-side events, collecting the frames sent. -/
def runEvents (st : AppState) : List SessionEvent → AppState × List GenAIBlob
  | [] => (st, [])
  | e :: rest =>
      let stepped := handleSessionEvent st e
      let tail := runEvents stepped.1 rest
      (tail.1, stepped.2 ++ tail.2)

/-- The `onerror` callback: format the error, surface it with the
"Live Session Error: " prefix, set ERROR, then run the full teardown
(whose last step sets DISCONNECTED). -/
def onerror (e : String) (st : AppState) : AppState :=
  stopLiveSession
    { st with
      error := some ("Live Session Error: " ++ formatGeminiError e)
      connectionState := ConnState.ERROR }

/-- Whether every track of a possibly-absent stream is stopped. -/
def allTracksStopped : Option MicStream → Bool
  | none => true
  | some m => m.tracks.all fun t => t.stopped

/-- Whether a possibly-absent audio context is not open (absent or closed). -/
def ctxNotOpen : Option AudioCtx → Bool
  | none => true
  | some c => c.state == CtxLifecycle.closed

/-- A representative mid-session state (connected, one live track). -/
def connectedState : AppState :=
  { session := some { closed := false }
    scriptProcessor := some true
    mediaStream := some { tracks := [{ stopped := false }] }
    inputCtx := some { state := CtxLifecycle.running, currentTime := 0, sampleRate := 16000 }
    outputCtx := some { state := CtxLifecycle.running, currentTime := 0, sampleRate := 24000 }
    nextStartTime := 0
    sources := []
    liveActive := true
    connectionState := ConnState.CONNECTED
    error := none
    isOutputPaused := false }

/-- A state left over by a previous session: the schedule clock and the
active-source set still hold the old session's values. -/
def leftoverState : AppState :=
  { initialState with nextStartTime := 1/2, sources := [(0, 1/2)] }

/-- A one-track microphone stream. -/
def micStream1 : MicStream := { tracks := [{ stopped := false }] }

/-- A four-character base64 payload holding one 16-bit sample (value 0). -/
def payloadOneSample : List Char := ['A', 'A', 'A', '=']

/-! ## Lemmas: base64 round trip -/

/-- Decoding a base64 digit recovers the 6-bit value (all 64 cases). -/
theorem charSextet_sextetChar_fin : ∀ n : Fin 64, charSextet (sextetChar n.val) = n.val := by
  decide

/-- No base64 digit is the padding character (all 64 cases). -/
theorem sextetChar_ne_pad_fin : ∀ n : Fin 64, sextetChar n.val ≠ '=' := by
  decide

/-- Decoding a base64 digit recovers the 6-bit value. -/
theorem charSextet_sextetChar (n : ℕ) (h : n < 64) : charSextet (sextetChar n) = n :=
  charSextet_sextetChar_fin ⟨n, h⟩

/-- No base64 digit is the padding character. -/
theorem sextetChar_ne_pad (n : ℕ) (h : n < 64) : sextetChar n ≠ '=' :=
  sextetChar_ne_pad_fin ⟨n, h⟩

/-- `atob` undoes `btoa` on byte lists. -/
theorem atob_btoa : ∀ l : List ℕ, (∀ b ∈ l, b < 256) → atob (btoa l) = l := by
  intro l
  induction l using btoa.induct with
  | case1 =>
      intro _
      rfl
  | case2 a =>
      intro h
      have ha : a < 256 := h a (by simp)
      simp only [btoa, atob, if_pos]
      rw [charSextet_sextetChar _ (by omega), charSextet_sextetChar _ (by omega)]
      have : a / 4 * 4 + a % 4 * 16 / 16 = a := by omega
      rw [this]
  | case3 a b =>
      intro h
      have ha : a < 256 := h a (by simp)
      have hb : b < 256 := h b (by simp)
      simp only [btoa, atob]
      rw [if_neg (sextetChar_ne_pad (b % 16 * 4) (by omega))]
      simp only [if_true]
      rw [charSextet_sextetChar _ (by omega), charSextet_sextetChar _ (by omega),
          charSextet_sextetChar _ (by omega)]
      have e1 : a / 4 * 4 + (a % 4 * 16 + b / 16) / 16 = a := by omega
      have e2 : (a % 4 * 16 + b / 16) % 16 * 16 + b % 16 * 4 / 4 = b := by omega
      rw [e1, e2]
  | case4 a b c rest ih =>
      intro h
      have ha : a < 256 := h a (by simp)
      have hb : b < 256 := h b (by simp)
      have hc : c < 256 := h c (by simp)
      have hrest : ∀ x ∈ rest, x < 256 := fun x hx => h x (by simp [hx])
      simp only [btoa, atob]
      rw [if_neg (sextetChar_ne_pad (b % 16 * 4 + c / 64) (by omega)),
          if_neg (sextetChar_ne_pad (c % 64) (by omega))]
      rw [charSextet_sextetChar _ (by omega), charSextet_sextetChar _ (by omega),
          charSextet_sextetChar _ (by omega), charSextet_sextetChar _ (by omega)]
      have e1 : a / 4 * 4 + (a % 4 * 16 + b / 16) / 16 = a := by omega
      have e2 : (a % 4 * 16 + b / 16) % 16 * 16 + (b % 16 * 4 + c / 64) / 4 = b := by omega
      have e3 : (b % 16 * 4 + c / 64) % 4 * 64 + c % 64 = c := by omega
      rw [e1, e2, e3, ih hrest]

/-! ## Lemmas: 16-bit little-endian packing -/

/-- Both bytes of an `Int16Array` element are bytes. -/
theorem int16LEBytes_lt (i : ℤ) : ∀ b ∈ int16LEBytes i, b < 256 := by
  intro b hb
  simp only [int16LEBytes, List.mem_cons, List.not_mem_nil, or_false] at hb
  have : i % 65536 < 65536 := Int.emod_lt_of_pos i (by omega)
  rcases hb with rfl | rfl <;> omega

/-- Reading back the two little-endian bytes of an in-range 16-bit value. -/
theorem bytesToInt16LE_pair (i : ℤ) (h1 : -32768 ≤ i) (h2 : i < 32768) (rest : List ℕ) :
    bytesToInt16LE (int16LEBytes i ++ rest) = i :: bytesToInt16LE rest := by
  have hhead : bytePairToInt16 ((i % 65536).toNat % 256) ((i % 65536).toNat / 256) = i := by
    unfold bytePairToInt16
    split <;> omega
  simp only [int16LEBytes, List.cons_append, List.nil_append, bytesToInt16LE]
  rw [hhead]
  rfl

/-- Byte-packing a list of in-range 16-bit values and reading it back. -/
theorem bytesToInt16LE_flatten (l : List ℤ) (h : ∀ i ∈ l, -32768 ≤ i ∧ i < 32768) :
    bytesToInt16LE ((l.map int16LEBytes).flatten) = l := by
  induction l with
  | nil => rfl
  | cons i t ih =>
      simp only [List.map_cons, List.flatten_cons]
      rw [bytesToInt16LE_pair i (h i (by simp)).1 (h i (by simp)).2,
          ih fun j hj => h j (by simp [hj])]

/-! ## Lemmas: quantization -/

/-- JS truncation toward zero is within 1 of the value. -/
theorem jsTrunc_err (q : ℚ) : |((jsTrunc q : ℤ) : ℚ) - q| < 1 := by
  unfold jsTrunc
  split
  · rw [abs_sub_lt_iff]
    constructor
    · have := Int.floor_le q
      linarith
    · have := Int.lt_floor_add_one q
      linarith
  · rw [abs_sub_lt_iff]
    constructor
    · have := Int.ceil_lt_add_one q
      linarith
    · have := Int.le_ceil q
      linarith

/-- Wrapping is the identity on the signed 16-bit range. -/
theorem wrap16_id (i : ℤ) (h1 : -32768 ≤ i) (h2 : i ≤ 32767) : wrap16 i = i := by
  unfold wrap16
  split <;> omega

/-- On samples in `[-1, 1)` the encoder's quantizer does not wrap, and its
value is the plain truncation of `v * 32768`, within the 16-bit range. -/
theorem encodeSample_eq (v : ℚ) (h1 : -1 ≤ v) (h2 : v < 1) :
    encodeSample v = jsTrunc (v * 32768)
    ∧ -32768 ≤ encodeSample v ∧ encodeSample v < 32768 := by
  have hy1 : (-32768 : ℚ) ≤ v * 32768 := by linarith
  have hy2 : v * 32768 < 32768 := by linarith
  have ht1 : -32768 ≤ jsTrunc (v * 32768) := by
    unfold jsTrunc
    split
    · exact Int.le_floor.mpr (by push_cast; linarith)
    · have hc := Int.le_ceil (v * 32768)
      have : (-32768 : ℚ) ≤ ((⌈v * 32768⌉ : ℤ) : ℚ) := by linarith
      exact_mod_cast this
  have ht2 : jsTrunc (v * 32768) ≤ 32767 := by
    unfold jsTrunc
    split
    · have : ⌊v * 32768⌋ < 32768 := Int.floor_lt.mpr (by push_cast; linarith)
      omega
    · have : ⌈v * 32768⌉ ≤ 32767 := Int.ceil_le.mpr (by push_cast; linarith)
      omega
  have heq : encodeSample v = jsTrunc (v * 32768) := by
    unfold encodeSample toInt16
    exact wrap16_id _ ht1 ht2
  exact ⟨heq, by omega, by omega⟩

/-- Per-sample round-trip bound on `[-1, 1)`. -/
theorem decodeSample_err (v : ℚ) (h1 : -1 ≤ v) (h2 : v < 1) :
    |((encodeSample v : ℤ) : ℚ) / 32768 - v| ≤ 1 / 32768 := by
  obtain ⟨heq, -, -⟩ := encodeSample_eq v h1 h2
  rw [heq]
  have herr := jsTrunc_err (v * 32768)
  have hsplit : ((jsTrunc (v * 32768) : ℤ) : ℚ) / 32768 - v
      = (((jsTrunc (v * 32768) : ℤ) : ℚ) - v * 32768) / 32768 := by ring
  rw [hsplit, abs_div, abs_of_pos (by norm_num : (0 : ℚ) < 32768)]
  exact (div_le_div_iff_of_pos_right (by norm_num)).mpr (le_of_lt herr)

/-! ## Lemmas: single-channel decode -/

/-- Indexing a list over `range` of its own length is mapping over it. -/
theorem range_getD_map {α β : Type} (f : α → β) (d : α) (l : List α) :
    (List.range l.length).map (fun i => f (l.getD i d)) = l.map f := by
  apply List.ext_getElem
  · simp
  · intro n h1 h2
    simp only [List.getElem_map, List.getElem_range]
    have hn : n < l.length := by simpa using h1
    rw [List.getD_eq_getElem _ _ hn]

/-- `decodeAudioData` with one channel yields one channel list, the 16-bit
values divided by 32768. -/
theorem decodeAudioData_one (bytes : List ℕ) :
    decodeAudioData bytes 1 = [(bytesToInt16LE bytes).map fun i => ((i : ℤ) : ℚ) / 32768] := by
  unfold decodeAudioData frameCount
  rw [show List.range 1 = [0] from rfl]
  simp only [Nat.div_one, List.map_cons, List.map_nil, mul_one, add_zero]
  congr 1
  exact range_getD_map (fun i => ((i : ℤ) : ℚ) / 32768) 0 (bytesToInt16LE bytes)

/-- The decoded bytes of an encoded frame are exactly the quantized
samples, provided every sample is in `[-1, 1)`. -/
theorem decode_createBlob (x : List ℚ) (h : ∀ v ∈ x, -1 ≤ v ∧ v < 1) :
    bytesToInt16LE (decode (createBlob x).data) = x.map encodeSample := by
  have hbytes : decode (createBlob x).data
      = ((x.map encodeSample).map int16LEBytes).flatten := by
    unfold decode createBlob
    rw [show (x.map fun v => int16LEBytes (encodeSample v))
        = ((x.map encodeSample).map int16LEBytes) by rw [List.map_map]; rfl]
    apply atob_btoa
    intro b hb
    simp only [List.mem_flatten, List.mem_map] at hb
    obtain ⟨bs, ⟨i, -, rfl⟩, hmem⟩ := hb
    exact int16LEBytes_lt i b hmem
  rw [hbytes]
  apply bytesToInt16LE_flatten
  intro i hi
  simp only [List.mem_map] at hi
  obtain ⟨v, hv, rfl⟩ := hi
  obtain ⟨-, hr1, hr2⟩ := encodeSample_eq v (h v hv).1 (h v hv).2
  exact ⟨hr1, hr2⟩

/-! ## Claims C2, C3, C4 -/

/-- C2 counterexample: the claim quantifies over samples in the closed
interval `[-1, 1]`, but at the full-scale sample `1.0` (which is in
`[-1, 1]`) the decoded value is `-1`, an error of `2 > 1/32768`. -/
theorem c2_roundtrip_counterexample :
    (-1 ≤ (1 : ℚ) ∧ (1 : ℚ) ≤ 1)
    ∧ ¬ (|((decodeAudioData (decode (createBlob [1]).data) 1).getD 0 []).getD 0 0 - (1 : ℚ)|
          ≤ 1 / 32768) := by
  decide

/-- C2 (amended): for every float sample array with every value in the
half-open interval `[-1, 1)`, decoding the encoded frame (base64-decode,
16-bit signed little-endian, divide by 32768) reconstructs each sample to
within 1/32768 of its original value (sample count preserved). -/
theorem c2_roundtrip_amended (x : List ℚ) (h : ∀ v ∈ x, -1 ≤ v ∧ v < 1) :
    ((decodeAudioData (decode (createBlob x).data) 1).getD 0 []).length = x.length
    ∧ ∀ k, k < x.length →
        |((decodeAudioData (decode (createBlob x).data) 1).getD 0 []).getD k 0 - x.getD k 0|
          ≤ 1 / 32768 := by
  rw [decodeAudioData_one, decode_createBlob x h]
  refine ⟨by simp, ?_⟩
  intro k hk
  simp only [List.getD_cons_zero]
  have hk1 : k < ((x.map encodeSample).map fun i => ((i : ℤ) : ℚ) / 32768).length := by
    simp [hk]
  have hk2 : k < (x.map encodeSample).length := by simp [hk]
  rw [List.getD_eq_getElem _ _ hk1, List.getD_eq_getElem _ _ hk,
      List.getElem_map, List.getElem_map]
  exact decodeSample_err x[k] (h x[k] (List.getElem_mem hk)).1 (h x[k] (List.getElem_mem hk)).2

/-- C2 witness: the amended round-trip law at the concrete array
`[1/2, -1]`. -/
theorem c2_roundtrip_amended_witness :
    (∀ v ∈ [(1 : ℚ)/2, -1], -1 ≤ v ∧ v < 1)
    ∧ (((decodeAudioData (decode (createBlob [(1 : ℚ)/2, -1]).data) 1).getD 0 []).length
          = ([(1 : ℚ)/2, -1]).length
      ∧ ∀ k, k < ([(1 : ℚ)/2, -1]).length →
          |((decodeAudioData (decode (createBlob [(1 : ℚ)/2, -1]).data) 1).getD 0 []).getD k 0
              - ([(1 : ℚ)/2, -1]).getD k 0| ≤ 1 / 32768) :=
  ⟨by decide, c2_roundtrip_amended [(1 : ℚ)/2, -1] (by decide)⟩

/-- C3: the code does NOT clamp a full-scale sample. `encode` on `1.0`
computes `1.0 * 32768 = 32768`, which the `Int16Array` store wraps to
`-32768`; the sample round-trips to `-1`, not to `32767/32768`. This
evaluates the code at the failing input of the claim. -/
theorem c3_fullscale_wraps :
    encodeSample 1 = -32768
    ∧ (decodeAudioData (decode (createBlob [1]).data) 1).getD 0 [] = [-1]
    ∧ encodeSample 1 ≠ 32767 := by
  decide

/-- C4 counterexample: with the configured input sample rate 24000, the
produced frame still declares `audio/pcm;rate=16000`, not the
`audio/pcm;rate=24000` the claim requires. -/
theorem c4_mime_counterexample :
    (createBlob [0]).mimeType ≠ specMimeType 24000
    ∧ (createBlob [0]).mimeType = specMimeType 16000 := by
  decide

/-- C4 (amended): every produced frame declares the hardcoded MIME
`audio/pcm;rate=16000`; among the four configurable input sample rates the
declared rate matches the configured one exactly when it is 16000. -/
theorem c4_mime_amended (data : List ℚ) (r : ℕ)
    (h : r = 16000 ∨ r = 24000 ∨ r = 44100 ∨ r = 48000) :
    (createBlob data).mimeType = "audio/pcm;rate=16000"
    ∧ ((createBlob data).mimeType = specMimeType r ↔ r = 16000) := by
  have hm : (createBlob data).mimeType = "audio/pcm;rate=16000" := rfl
  refine ⟨hm, ?_⟩
  rw [hm]
  rcases h with rfl | rfl | rfl | rfl <;> decide

/-- C4 witness: the amended statement at the concrete rate 24000. -/
theorem c4_mime_amended_witness :
    ((24000 : ℕ) = 16000 ∨ (24000 : ℕ) = 24000 ∨ (24000 : ℕ) = 44100 ∨ (24000 : ℕ) = 48000)
    ∧ ((createBlob []).mimeType = "audio/pcm;rate=16000"
      ∧ ((createBlob []).mimeType = specMimeType 24000 ↔ (24000 : ℕ) = 16000)) :=
  ⟨by decide, c4_mime_amended [] 24000 (by decide)⟩

/-! ## Lemmas: teardown -/

/-- Whatever its prior state, the caught close leaves the session closed. -/
theorem closeSessionCaught_closed (s : SessionHandle) :
    closeSessionCaught s = { closed := true } := by
  obtain ⟨c⟩ := s
  cases c <;> rfl

/-- The caught close is idempotent (as a function). -/
theorem closeSessionCaught_comp :
    closeSessionCaught ∘ closeSessionCaught = closeSessionCaught := by
  funext s
  simp [Function.comp, closeSessionCaught_closed]

/-- The guarded context close always leaves the context closed. -/
theorem closeCtxGuarded_state (c : AudioCtx) :
    (closeCtxGuarded c).state = CtxLifecycle.closed := by
  unfold closeCtxGuarded closeCtx
  split
  · rfl
  · next h => exact not_not.mp h

/-- The guarded context close is idempotent. -/
theorem closeCtxGuarded_idem (c : AudioCtx) :
    closeCtxGuarded (closeCtxGuarded c) = closeCtxGuarded c := by
  have h := closeCtxGuarded_state c
  show (if (closeCtxGuarded c).state ≠ CtxLifecycle.closed
      then closeCtx (closeCtxGuarded c) else closeCtxGuarded c) = closeCtxGuarded c
  rw [h]
  simp

/-- The guarded context close is idempotent (as a function). -/
theorem closeCtxGuarded_comp :
    closeCtxGuarded ∘ closeCtxGuarded = closeCtxGuarded :=
  funext fun c => closeCtxGuarded_idem c

/-- Stopping all tracks is idempotent (as a function). -/
theorem stopAllTracks_comp : stopAllTracks ∘ stopAllTracks = stopAllTracks := by
  funext m
  simp [Function.comp, stopAllTracks]

/-- Everything `stopLiveSession` guarantees, in one place: all tracks
stopped, both contexts not open, DISCONNECTED, live flag cleared, the
surfaced error untouched, and idempotence. -/
theorem stopLiveSession_spec (st : AppState) :
    allTracksStopped (stopLiveSession st).mediaStream = true
    ∧ ctxNotOpen (stopLiveSession st).inputCtx = true
    ∧ ctxNotOpen (stopLiveSession st).outputCtx = true
    ∧ (stopLiveSession st).connectionState = ConnState.DISCONNECTED
    ∧ (stopLiveSession st).liveActive = false
    ∧ (stopLiveSession st).error = st.error
    ∧ stopLiveSession (stopLiveSession st) = stopLiveSession st := by
  refine ⟨?_, ?_, ?_, rfl, rfl, rfl, ?_⟩
  · cases h : st.mediaStream with
    | none => simp [stopLiveSession, allTracksStopped, h]
    | some m =>
        simp [stopLiveSession, allTracksStopped, stopAllTracks, h, List.all_map,
          Function.comp]
  · cases h : st.inputCtx with
    | none => simp [stopLiveSession, ctxNotOpen, h]
    | some c => simp [stopLiveSession, ctxNotOpen, h, closeCtxGuarded_state]
  · cases h : st.outputCtx with
    | none => simp [stopLiveSession, ctxNotOpen, h]
    | some c => simp [stopLiveSession, ctxNotOpen, h, closeCtxGuarded_state]
  · obtain ⟨ses, sp, ms, ic, oc, nst, src, la, cs, er, op⟩ := st
    simp [stopLiveSession, Option.map_map, closeSessionCaught_comp,
      closeCtxGuarded_comp, stopAllTracks_comp]

/-! ## Claim C5 -/

/-- C5: `stopLiveSession` is a total function of the whole state (every
fallible step of the source is caught), so calling it in any state —
including with absent or already-closed session, stream, or contexts —
completes; afterwards no microphone track is active, no input or output
context remains open, and the state is DISCONNECTED. Running it again on
its own result changes nothing (closing the already-closed session is
swallowed by `closeSessionCaught`). -/
theorem c5_stop_safe (st : AppState) :
    allTracksStopped (stopLiveSession st).mediaStream = true
    ∧ ctxNotOpen (stopLiveSession st).inputCtx = true
    ∧ ctxNotOpen (stopLiveSession st).outputCtx = true
    ∧ (stopLiveSession st).connectionState = ConnState.DISCONNECTED
    ∧ (stopLiveSession st).liveActive = false
    ∧ stopLiveSession (stopLiveSession st) = stopLiveSession st := by
  obtain ⟨h1, h2, h3, h4, h5, -, h7⟩ := stopLiveSession_spec st
  exact ⟨h1, h2, h3, h4, h5, h7⟩

/-! ## Claim C6 -/

/-- C6 counterexample: a transport error on a connected session does not
leave the state machine in ERROR — the teardown that `onerror` triggers
ends by setting DISCONNECTED (the formatted message is still surfaced). -/
theorem c6_transport_error_counterexample :
    (onerror ("fetch failed") connectedState).connectionState ≠ ConnState.ERROR
    ∧ (onerror ("fetch failed") connectedState).connectionState = ConnState.DISCONNECTED
    ∧ (onerror ("fetch failed") connectedState).error
        = some ("Live Session Error: Network connection failed. Please check your internet.") := by
  decide

/-- C6 (amended): for every transport-level error, the error is formatted
and surfaced as "Live Session Error: <formatted>", full teardown of capture
and audio resources runs (tracks stopped, contexts closed), and the handler
is exactly the teardown applied to the state it first set to ERROR — but
the teardown's final step leaves `connectionState` DISCONNECTED, not ERROR. -/
theorem c6_transport_error_amended (e : String) (st : AppState) :
    (onerror e st).error = some ("Live Session Error: " ++ formatGeminiError e)
    ∧ (onerror e st).connectionState = ConnState.DISCONNECTED
    ∧ allTracksStopped (onerror e st).mediaStream = true
    ∧ ctxNotOpen (onerror e st).inputCtx = true
    ∧ ctxNotOpen (onerror e st).outputCtx = true
    ∧ onerror e st = stopLiveSession
        { st with
          error := some ("Live Session Error: " ++ formatGeminiError e)
          connectionState := ConnState.ERROR } := by
  obtain ⟨h1, h2, h3, h4, -, h6, -⟩ := stopLiveSession_spec
    { st with
      error := some ("Live Session Error: " ++ formatGeminiError e)
      connectionState := ConnState.ERROR }
  exact ⟨h6, h4, h1, h2, h3, rfl⟩

/-! ## Claim C7 -/

/-- C7: contrary to the claim, entering CONNECTING does NOT reset the
schedule clock or clear stale buffers: `startLiveSession` leaves
`nextStartTime` and `sources` untouched for every input. Concretely, after
a previous session left the clock at 1/2, a restarted session creates a
fresh output context whose clock is 0, yet the first inbound buffer is
scheduled at 1/2, not at the new output clock. -/
theorem c7_no_clock_reset :
    (∀ (cfg : AudioSettings) (mic : Except MicFailure MicStream) (st : AppState),
        (startLiveSession cfg mic st).nextStartTime = st.nextStartTime
        ∧ (startLiveSession cfg mic st).sources = st.sources)
    ∧ (startLiveSession settings (Except.ok micStream1) leftoverState).nextStartTime = 1/2
    ∧ (startLiveSession settings (Except.ok micStream1) leftoverState).outputCtx
        = some { state := CtxLifecycle.running, currentTime := 0, sampleRate := 24000 }
    ∧ (onmessage settings { inlineData := some payloadOneSample }
        (startLiveSession settings (Except.ok micStream1) leftoverState)).2
        = some (1/2, 1/24000)
    ∧ ((1 : ℚ)/2 ≠ 0) := by
  refine ⟨?_, by decide, by decide, by decide, by decide⟩
  intro cfg mic st
  cases mic <;> exact ⟨rfl, rfl⟩

/-! ## Claim C9 -/

/-- The microphone failure messages pass through `formatGeminiError`
unchanged (none of them matches any of its substring tests). -/
theorem formatGeminiError_micMessage (f : MicFailure) :
    formatGeminiError (micErrorMessage f) = micErrorMessage f := by
  cases f <;> decide

/-- C9: when microphone acquisition fails, `startLiveSession` surfaces the
kind-specific message (permission denied, device not found, and other
failures give three pairwise distinct messages), the session is never
created (the session ref and live flag are untouched), and the state
machine ends in ERROR — not CONNECTING or CONNECTED. -/
theorem c9_mic_failure (cfg : AudioSettings) (st : AppState) (f : MicFailure) :
    (startLiveSession cfg (Except.error f) st).connectionState = ConnState.ERROR
    ∧ (startLiveSession cfg (Except.error f) st).error = some (micErrorMessage f)
    ∧ (startLiveSession cfg (Except.error f) st).session = st.session
    ∧ (startLiveSession cfg (Except.error f) st).liveActive = st.liveActive
    ∧ micErrorMessage MicFailure.permissionDenied ≠ micErrorMessage MicFailure.notFound
    ∧ micErrorMessage MicFailure.notFound ≠ micErrorMessage MicFailure.otherFailure
    ∧ micErrorMessage MicFailure.permissionDenied ≠ micErrorMessage MicFailure.otherFailure := by
  refine ⟨rfl, ?_, rfl, rfl, by decide, by decide, by decide⟩
  show some (formatGeminiError (micErrorMessage f)) = some (micErrorMessage f)
  rw [formatGeminiError_micMessage]

/-! ## Claim C8 -/

/-- C8: with the capture processor not yet created (as before `connect`
resolves), a trace of capture-side events containing no open event sends
no frame: the chain that encodes and sends microphone chunks is wired only
inside the open callback. -/
theorem c8_no_send_before_open (st : AppState) (evs : List SessionEvent)
    (hproc : st.scriptProcessor = none)
    (hopen : SessionEvent.openEvt ∉ evs) :
    (runEvents st evs).2 = [] := by
  induction evs generalizing st with
  | nil => rfl
  | cons e rest ih =>
      cases e with
      | openEvt => exact absurd (by simp) hopen
      | micChunk d =>
          have hopen' : SessionEvent.openEvt ∉ rest := fun hmem => hopen (by simp [hmem])
          simp only [runEvents, handleSessionEvent, hproc]
          simpa using ih st hproc hopen'

/-- C8 witness: two microphone chunks before any open event produce no
sent frames. -/
theorem c8_no_send_before_open_witness :
    (initialState.scriptProcessor = none
      ∧ SessionEvent.openEvt ∉ [SessionEvent.micChunk [1/2], SessionEvent.micChunk []])
    ∧ (runEvents initialState [SessionEvent.micChunk [1/2], SessionEvent.micChunk []]).2 = [] :=
  ⟨by decide,
    c8_no_send_before_open initialState
      [SessionEvent.micChunk [1/2], SessionEvent.micChunk []] (by decide) (by decide)⟩

/-! ## Claim C10 -/

/-- C10: a message with no audio payload, or arriving when the output
context is absent or already closed, is a no-op for the handler: no
playback is scheduled and the state (schedule clock, active-source set,
everything) is unchanged. -/
theorem c10_message_noop (cfg : AudioSettings) (msg : LiveServerMessage) (st : AppState)
    (h : msg.inlineData = none ∨ st.outputCtx = none
        ∨ st.outputCtx.map AudioCtx.state = some CtxLifecycle.closed) :
    onmessage cfg msg st = (st, none) := by
  rcases h with h | h | h
  · cases hc : st.outputCtx with
    | none => simp [onmessage, h, hc]
    | some c => simp [onmessage, h, hc]
  · cases hb : msg.inlineData with
    | none => simp [onmessage, h, hb]
    | some b => simp [onmessage, h, hb]
  · cases hc : st.outputCtx with
    | none =>
        rw [hc] at h
        simp at h
    | some c =>
        rw [hc] at h
        have hcs : c.state = CtxLifecycle.closed := by simpa using h
        cases hb : msg.inlineData with
        | none => simp [onmessage, hb, hc]
        | some b => simp [onmessage, hb, hc, hcs]

/-- C10 witness: a payload-free message on a connected state is a no-op. -/
theorem c10_message_noop_witness :
    (({ inlineData := none } : LiveServerMessage).inlineData = none
      ∨ connectedState.outputCtx = none
      ∨ connectedState.outputCtx.map AudioCtx.state = some CtxLifecycle.closed)
    ∧ onmessage settings { inlineData := none } connectedState = (connectedState, none) :=
  ⟨Or.inl rfl,
    c10_message_noop settings { inlineData := none } connectedState (Or.inl rfl)⟩

/-! ## Lemmas: the playback scheduler -/

/-- A buffer duration is never negative. -/
theorem msgDur_nonneg (cfg : AudioSettings) (b64 : List Char) : 0 ≤ msgDur cfg b64 :=
  div_nonneg (Nat.cast_nonneg _) (Nat.cast_nonneg _)

/-- `sumTake` of zero elements. -/
theorem sumTake_zero (l : List ℚ) : sumTake l 0 = 0 := rfl

/-- `sumTake` peeling the head. -/
theorem sumTake_cons (d : ℚ) (l : List ℚ) (k : ℕ) :
    sumTake (d :: l) (k + 1) = d + sumTake l k := by
  simp [sumTake]

/-- `sumTake` of one more element appends the indexed element. -/
theorem sumTake_succ_getD (l : List ℚ) (k : ℕ) (hk : k < l.length) :
    sumTake l (k + 1) = sumTake l k + l.getD k 0 := by
  rw [sumTake, sumTake, List.take_succ, List.sum_append, List.getElem?_eq_getElem hk,
      List.getD_eq_getElem l 0 hk]
  simp

/-- Indexing a map over a range with a default. -/
theorem getD_map_range {β : Type} (F : ℕ → β) (n k : ℕ) (hk : k < n) (d : β) :
    ((List.range n).map F).getD k d = F k := by
  rw [List.getD_eq_getElem _ _ (by simpa using hk), List.getElem_map, List.getElem_range]

/-- How `onmessage` reduces on a nonempty payload with an open context:
the buffer is started at `max scheduleClock outputClockNow` and the clock
advances by the buffer's duration. -/
theorem onmessage_step (cfg : AudioSettings) (b64 : List Char) (ctx0 : AudioCtx) (now : ℚ)
    (st : AppState) (hb : b64 ≠ []) (hopen : ctx0.state ≠ CtxLifecycle.closed) :
    onmessage cfg { inlineData := some b64 }
        { st with outputCtx := some { ctx0 with currentTime := now } }
      = ({ st with
            outputCtx := some { ctx0 with currentTime := now }
            nextStartTime := max st.nextStartTime now + msgDur cfg b64
            sources := (max st.nextStartTime now, msgDur cfg b64) :: st.sources },
         some (max st.nextStartTime now, msgDur cfg b64)) := by
  simp only [onmessage]
  rw [if_pos ⟨hb, hopen⟩]
  rfl

/-- The schedule clock never decreases across a message. -/
theorem onmessage_clock_mono (cfg : AudioSettings) (msg : LiveServerMessage) (s : AppState) :
    s.nextStartTime ≤ (onmessage cfg msg s).1.nextStartTime := by
  cases hb : msg.inlineData with
  | none => cases hc : s.outputCtx <;> simp [onmessage, hb, hc]
  | some b =>
      cases hc : s.outputCtx with
      | none => simp [onmessage, hb, hc]
      | some c =>
          simp only [onmessage, hb, hc]
          split
          · show s.nextStartTime ≤ max s.nextStartTime c.currentTime + msgDur cfg b
            exact le_trans (le_max_left _ _)
              (le_add_of_nonneg_right (msgDur_nonneg cfg b))
          · exact le_refl _

/-- Steady-state scheduling: when every arrival time is at or before the
backlog already scheduled (no pauses and no starvation), each buffer is
started exactly at the current schedule clock plus the prior durations, and
the clock ends at the clock plus the total duration. -/
theorem runMessages_noPause (cfg : AudioSettings) (ctx0 : AudioCtx)
    (hopen : ctx0.state ≠ CtxLifecycle.closed) :
    ∀ (msgs : List (List Char × ℚ)) (st : AppState),
      (∀ p ∈ msgs, p.1 ≠ []) →
      (∀ k, k < msgs.length →
        (msgs.getD k ([], 0)).2
          ≤ st.nextStartTime + sumTake (msgs.map fun p => msgDur cfg p.1) k) →
      (runMessages cfg ctx0 st msgs).2
          = (List.range msgs.length).map
              (fun k => (st.nextStartTime + sumTake (msgs.map fun p => msgDur cfg p.1) k,
                msgDur cfg (msgs.getD k ([], 0)).1))
        ∧ (runMessages cfg ctx0 st msgs).1.nextStartTime
            = st.nextStartTime + (msgs.map fun p => msgDur cfg p.1).sum := by
  intro msgs
  induction msgs with
  | nil =>
      intro st _ _
      exact ⟨rfl, by simp [runMessages]⟩
  | cons hd rest ih =>
      intro st hne hnop
      obtain ⟨b, now⟩ := hd
      have hb : b ≠ [] := hne (b, now) (List.mem_cons_self _ _)
      have hnow : now ≤ st.nextStartTime := by
        have h0 := hnop 0 (by simp)
        simpa [sumTake] using h0
      have hne' : ∀ p ∈ rest, p.1 ≠ [] := fun p hp => hne p (List.mem_cons_of_mem _ hp)
      simp only [runMessages]
      rw [onmessage_step cfg b ctx0 now st hb hopen, max_eq_left hnow]
      have hnop' : ∀ k, k < rest.length →
          (rest.getD k ([], 0)).2
            ≤ ({ st with
                  outputCtx := some { ctx0 with currentTime := now }
                  nextStartTime := st.nextStartTime + msgDur cfg b
                  sources := (st.nextStartTime, msgDur cfg b) :: st.sources } :
                AppState).nextStartTime
              + sumTake (rest.map fun p => msgDur cfg p.1) k := by
        intro k hk
        have h := hnop (k + 1) (by simpa using Nat.succ_lt_succ hk)
        rw [List.getD_cons_succ, List.map_cons, sumTake_cons] at h
        show (rest.getD k ([], 0)).2
            ≤ st.nextStartTime + msgDur cfg b + sumTake (rest.map fun p => msgDur cfg p.1) k
        calc (rest.getD k ([], 0)).2
            ≤ st.nextStartTime + (msgDur cfg (b, now).1 + sumTake (rest.map fun p => msgDur cfg p.1) k) := h
          _ = st.nextStartTime + msgDur cfg b + sumTake (rest.map fun p => msgDur cfg p.1) k := by
              ring
      obtain ⟨ihp, ihc⟩ := ih
        { st with
          outputCtx := some { ctx0 with currentTime := now }
          nextStartTime := st.nextStartTime + msgDur cfg b
          sources := (st.nextStartTime, msgDur cfg b) :: st.sources } hne' hnop'
      constructor
      · show (some (st.nextStartTime, msgDur cfg b)).toList
            ++ (runMessages cfg ctx0 _ rest).2 = _
        rw [Option.toList_some, ihp]
        apply List.ext_getElem
        · simp
        · intro n h1 h2
          cases n with
          | zero => simp [sumTake]
          | succ m =>
              simp only [List.getElem_cons_succ, List.getElem_map, List.getElem_range,
                List.map_cons, sumTake_cons, List.getD_cons_succ]
              simp [add_assoc]
      · show (runMessages cfg ctx0 _ rest).1.nextStartTime = _
        rw [ihc, List.map_cons, List.sum_cons]
        show st.nextStartTime + msgDur cfg b + (rest.map fun p => msgDur cfg p.1).sum
            = st.nextStartTime + (msgDur cfg b + (rest.map fun p => msgDur cfg p.1).sum)
        ring

/-! ## Claim C1 -/

/-- C1: for a sequence of decoded playback buffers handled consecutively by
`onmessage` with no pauses (each arrival at or before the scheduled
backlog), starting from a reset schedule clock, buffer `k` is started at
the initial output-clock offset `now0` plus the sum of the durations of
buffers `0..k-1`; the clock ends at `now0` plus the total duration;
consecutive buffers chain exactly (start of `k+1` equals start of `k` plus
its duration: gapless, non-overlapping, ordered by arrival); and the
schedule clock is nondecreasing across every message. Each start time is
computed as `max (scheduleClock, outputClockNow)` and the clock then
advances by the buffer's duration, by definition of `onmessage`. -/
theorem c1_gapless_schedule (cfg : AudioSettings) (ctx0 : AudioCtx) (st : AppState)
    (b0 : List Char) (now0 : ℚ) (rest : List (List Char × ℚ))
    (hopen : ctx0.state ≠ CtxLifecycle.closed)
    (hclock : st.nextStartTime = 0)
    (hnow0 : 0 ≤ now0)
    (hne0 : b0 ≠ [])
    (hne : ∀ p ∈ rest, p.1 ≠ [])
    (hnopause : ∀ k, k < rest.length →
      (rest.getD k ([], 0)).2
        ≤ now0 + sumTake (msgDur cfg b0 :: rest.map fun p => msgDur cfg p.1) (k + 1)) :
    (runMessages cfg ctx0 st ((b0, now0) :: rest)).2
        = (List.range (rest.length + 1)).map
            (fun k => (now0 + sumTake (msgDur cfg b0 :: rest.map fun p => msgDur cfg p.1) k,
              msgDur cfg (((b0, now0) :: rest).getD k ([], 0)).1))
    ∧ (runMessages cfg ctx0 st ((b0, now0) :: rest)).1.nextStartTime
        = now0 + (msgDur cfg b0 :: rest.map fun p => msgDur cfg p.1).sum
    ∧ (∀ k, k + 1 < rest.length + 1 →
        ((runMessages cfg ctx0 st ((b0, now0) :: rest)).2.getD (k + 1) (0, 0)).1
          = ((runMessages cfg ctx0 st ((b0, now0) :: rest)).2.getD k (0, 0)).1
            + ((runMessages cfg ctx0 st ((b0, now0) :: rest)).2.getD k (0, 0)).2)
    ∧ (∀ (msg : LiveServerMessage) (s : AppState),
        s.nextStartTime ≤ (onmessage cfg msg s).1.nextStartTime) := by
  have hnop' : ∀ k, k < rest.length →
      (rest.getD k ([], 0)).2
        ≤ ({ st with
              outputCtx := some { ctx0 with currentTime := now0 }
              nextStartTime := now0 + msgDur cfg b0
              sources := (now0, msgDur cfg b0) :: st.sources } : AppState).nextStartTime
          + sumTake (rest.map fun p => msgDur cfg p.1) k := by
    intro k hk
    have h := hnopause k hk
    rw [sumTake_cons] at h
    show (rest.getD k ([], 0)).2
        ≤ now0 + msgDur cfg b0 + sumTake (rest.map fun p => msgDur cfg p.1) k
    linarith
  obtain ⟨ihp, ihc⟩ := runMessages_noPause cfg ctx0 hopen rest
    { st with
      outputCtx := some { ctx0 with currentTime := now0 }
      nextStartTime := now0 + msgDur cfg b0
      sources := (now0, msgDur cfg b0) :: st.sources } hne hnop'
  have hrun : runMessages cfg ctx0 st ((b0, now0) :: rest)
      = ((runMessages cfg ctx0
            { st with
              outputCtx := some { ctx0 with currentTime := now0 }
              nextStartTime := now0 + msgDur cfg b0
              sources := (now0, msgDur cfg b0) :: st.sources } rest).1,
         (now0, msgDur cfg b0)
           :: (runMessages cfg ctx0
            { st with
              outputCtx := some { ctx0 with currentTime := now0 }
              nextStartTime := now0 + msgDur cfg b0
              sources := (now0, msgDur cfg b0) :: st.sources } rest).2) := by
    simp only [runMessages]
    rw [onmessage_step cfg b0 ctx0 now0 st hne0 hopen, hclock, max_eq_right hnow0]
    rfl
  have hplays : (runMessages cfg ctx0 st ((b0, now0) :: rest)).2
      = (List.range (rest.length + 1)).map
          (fun k => (now0 + sumTake (msgDur cfg b0 :: rest.map fun p => msgDur cfg p.1) k,
            msgDur cfg (((b0, now0) :: rest).getD k ([], 0)).1)) := by
    rw [hrun]
    show (now0, msgDur cfg b0) :: _ = _
    rw [ihp]
    apply List.ext_getElem
    · simp
    · intro n h1 h2
      cases n with
      | zero => simp [sumTake]
      | succ m =>
          simp only [List.getElem_cons_succ, List.getElem_map, List.getElem_range,
            sumTake_cons, List.getD_cons_succ]
          simp [add_assoc]
  refine ⟨hplays, ?_, ?_, fun msg s => onmessage_clock_mono cfg msg s⟩
  · rw [hrun]
    show (runMessages cfg ctx0 _ rest).1.nextStartTime = _
    rw [ihc]
    show now0 + msgDur cfg b0 + (rest.map fun p => msgDur cfg p.1).sum
        = now0 + (msgDur cfg b0 :: rest.map fun p => msgDur cfg p.1).sum
    rw [List.sum_cons]
    ring
  · intro k hk
    rw [hplays, getD_map_range _ _ (k + 1) (by omega), getD_map_range _ _ k (by omega)]
    show now0 + sumTake (msgDur cfg b0 :: rest.map fun p => msgDur cfg p.1) (k + 1)
        = now0 + sumTake (msgDur cfg b0 :: rest.map fun p => msgDur cfg p.1) k
          + msgDur cfg (((b0, now0) :: rest).getD k ([], 0)).1
    have hlen : k < (msgDur cfg b0 :: rest.map fun p => msgDur cfg p.1).length := by
      simp only [List.length_cons, List.length_map]
      omega
    rw [sumTake_succ_getD _ k hlen]
    have hgd : (msgDur cfg b0 :: rest.map fun p => msgDur cfg p.1).getD k 0
        = msgDur cfg (((b0, now0) :: rest).getD k ([], 0)).1 := by
      rw [show (msgDur cfg b0 :: rest.map fun p => msgDur cfg p.1)
          = ((b0, now0) :: rest).map (fun p => msgDur cfg p.1) from by rw [List.map_cons]]
      have hk2 : k < ((b0, now0) :: rest).length := by
        simp only [List.length_cons]
        omega
      rw [List.getD_eq_getElem _ _ (by simpa using hk2), List.getElem_map,
          List.getD_eq_getElem _ _ hk2]
    rw [hgd]
    ring

/-- C1 witness: two one-sample buffers arriving back to back (the second
while the first is still scheduled) play gaplessly at offsets 0 and
1/24000. -/
theorem c1_gapless_schedule_witness :
    (({ state := CtxLifecycle.running, currentTime := 0, sampleRate := 24000 } : AudioCtx).state
        ≠ CtxLifecycle.closed
      ∧ initialState.nextStartTime = 0
      ∧ (0 : ℚ) ≤ 0
      ∧ payloadOneSample ≠ []
      ∧ (∀ p ∈ [(payloadOneSample, (1 : ℚ)/48000)], p.1 ≠ [])
      ∧ (∀ k, k < [(payloadOneSample, (1 : ℚ)/48000)].length →
          (([(payloadOneSample, (1 : ℚ)/48000)]).getD k ([], 0)).2
            ≤ 0 + sumTake (msgDur settings payloadOneSample
                :: [(payloadOneSample, (1 : ℚ)/48000)].map fun p => msgDur settings p.1)
                (k + 1)))
    ∧ (runMessages settings
          { state := CtxLifecycle.running, currentTime := 0, sampleRate := 24000 }
          initialState [(payloadOneSample, 0), (payloadOneSample, (1 : ℚ)/48000)]).2
        = [(0, 1/24000), (1/24000, 1/24000)] := by
  refine ⟨by decide, ?_⟩
  have h := c1_gapless_schedule settings
    { state := CtxLifecycle.running, currentTime := 0, sampleRate := 24000 }
    initialState payloadOneSample 0 [(payloadOneSample, (1 : ℚ)/48000)]
    (by decide) (by decide) (by decide) (by decide) (by decide) (by decide)
  rw [h.1]
  decide

end WebAI
